import Mathlib

/-!
Shallow embedding of the monzo/verifiedsms Go library.

The repository's own code (verified-sms.go, hashing/hashing.go,
data-munging) is translated into executable Lean definitions.  External
collaborators that are not part of the repository — the Go standard
library's base64 decoder, PKIX/ASN.1 public-key parser, the elliptic-curve
scalar multiplication, and the two HTTP network legs — are passed in as
explicit parameters (`HashingExt`, `PartnerEnv`), so every theorem
quantifies over all possible behaviours of those collaborators while the
repository's own branching logic is modelled exactly.  Errors from the
`terrors` package are modelled by the `Terror` inductive; `terrors.Propagate`
is the identity on already-typed errors and is therefore elided.
-/

set_option maxRecDepth 4096

namespace VerifiedSMS

/-- Model of the `terrors` error values the repository constructs or
propagates.  `preconditionFailed` carries the message and the `params`
map (as an association list, in insertion order); `internalService`
carries the message.  Errors produced by external collaborators are
also `Terror` values (in Go they are arbitrary `error`s that
`terrors.Propagate` wraps; the wrapping does not change which error is
returned, so it is modelled as the identity). -/
inductive Terror where
  | preconditionFailed (message : String) (params : List (String × String))
  | internalService (message : String)
  deriving DecidableEq, Repr

/-- Go strings are byte/rune sequences; the SMS message text is modelled as
a list of characters (Go iterates runes in `strings.TrimSpace`). -/
abbrev GoString := List Char

/-- Go `unicode.IsSpace`: the whitespace characters recognised by
`strings.TrimSpace` — Latin-1 fast path `\t \n \v \f \r space U+0085 U+00A0`
plus the Unicode White_Space code points above Latin-1. -/
def isSpaceGo (c : Char) : Bool :=
  let n := c.toNat
  n == 9 || n == 10 || n == 11 || n == 12 || n == 13 || n == 32 ||
  n == 0x85 || n == 0xA0 ||
  n == 0x1680 || (0x2000 ≤ n && n ≤ 0x200A) || n == 0x2028 || n == 0x2029 ||
  n == 0x202F || n == 0x205F || n == 0x3000

/-- Go `strings.TrimSpace`: drop leading and trailing whitespace. -/
def trimSpace (s : GoString) : GoString :=
  ((s.dropWhile isSpaceGo).reverse.dropWhile isSpaceGo).reverse

/-- `data_munging.GetAllIterationsOfSMSMessage` from the repository's
data-munging package, translated literally: start from `[smsMessage]`,
compute the trimmed message, and when it differs append `smsMessage`
again (the source appends the original, not the trimmed form). -/
def GetAllIterationsOfSMSMessage (smsMessage : GoString) : List GoString :=
  let iterations : List GoString := [smsMessage]
  let trimmedMessage := trimSpace smsMessage
  if trimmedMessage ≠ smsMessage then iterations ++ [smsMessage]
  else iterations

/-! ### SHA-256, HMAC-SHA256 and the HKDF step used by the hashing package

`hashing.deriveHashForSMSMessage` calls `hkdf.New(sha256.New, sharedSecret,
nil, smsMessageContent)` and reads exactly 32 bytes, which is the first
HKDF output block `T(1) = HMAC(PRK, info ++ [0x01])` with
`PRK = HMAC(zeroSalt, sharedSecret)`.  SHA-256 is implemented concretely
so the derived hash is a computable value.  Bytes are `Nat`s below 256 and
32-bit words are `Nat`s reduced with `w32`. -/

/-- Reduce modulo 2^32. -/
def w32 (n : Nat) : Nat := n % 4294967296

/-- 32-bit right rotation (input assumed below 2^32). -/
def rotr32 (n x : Nat) : Nat := (x >>> n) ||| (w32 (x <<< (32 - n)))

/-- Bitwise complement within 32 bits (input assumed below 2^32). -/
def complement32 (x : Nat) : Nat := 4294967295 - w32 x

def bigSigma0 (x : Nat) : Nat := rotr32 2 x ^^^ rotr32 13 x ^^^ rotr32 22 x

def bigSigma1 (x : Nat) : Nat := rotr32 6 x ^^^ rotr32 11 x ^^^ rotr32 25 x

def smallSigma0 (x : Nat) : Nat := rotr32 7 x ^^^ rotr32 18 x ^^^ (x >>> 3)

def smallSigma1 (x : Nat) : Nat := rotr32 17 x ^^^ rotr32 19 x ^^^ (x >>> 10)

def chF (x y z : Nat) : Nat := (x &&& y) ^^^ (complement32 x &&& z)

def majF (x y z : Nat) : Nat := (x &&& y) ^^^ (x &&& z) ^^^ (y &&& z)

/-- The eight 32-bit words of SHA-256 working state. -/
structure Sha8 where
  a : Nat
  b : Nat
  c : Nat
  d : Nat
  e : Nat
  f : Nat
  g : Nat
  hh : Nat
  deriving DecidableEq, Repr

/-- The SHA-256 round constants. -/
def sha256K : List Nat :=
  [1116352408, 1899447441, 3049323471, 3921009573, 961987163, 1508970993,
   2453635748, 2870763221, 3624381080, 310598401, 607225278, 1426881987,
   1925078388, 2162078206, 2614888103, 3248222580, 3835390401, 4022224774,
   264347078, 604807628, 770255983, 1249150122, 1555081692, 1996064986,
   2554220882, 2821834349, 2952996808, 3210313671, 3336571891, 3584528711,
   113926993, 338241895, 666307205, 773529912, 1294757372, 1396182291,
   1695183700, 1986661051, 2177026350, 2456956037, 2730485921, 2820302411,
   3259730800, 3345764771, 3516065817, 3600352804, 4094571909, 275423344,
   430227734, 506948616, 659060556, 883997877, 958139571, 1322822218,
   1537002063, 1747873779, 1955562222, 2024104815, 2227730452, 2361852424,
   2428436474, 2756734187, 3204031479, 3329325298]

/-- SHA-256 initial hash value. -/
def sha256Init : Sha8 :=
  ⟨1779033703, 3144134277, 1013904242, 2773480762,
   1359893119, 2600822924, 528734635, 1541459225⟩

/-- One SHA-256 round with a (round constant, schedule word) pair. -/
def roundStep (s : Sha8) (kw : Nat × Nat) : Sha8 :=
  let t1 := w32 (s.hh + bigSigma1 s.e + chF s.e s.f s.g + kw.1 + kw.2)
  let t2 := w32 (bigSigma0 s.a + majF s.a s.b s.c)
  ⟨w32 (t1 + t2), s.a, s.b, s.c, w32 (s.d + t1), s.e, s.f, s.g⟩

/-- Run the 64 compression rounds. -/
def roundsAll (s : Sha8) : List (Nat × Nat) → Sha8
  | [] => s
  | kw :: rest => roundsAll (roundStep s kw) rest

/-- Extend the message schedule: the accumulator holds the schedule words
produced so far, most recent first; each step prepends a new word. -/
def extendSchedule : Nat → List Nat → List Nat
  | 0, acc => acc.reverse
  | fuel + 1, acc =>
      extendSchedule fuel
        (w32 (smallSigma1 (acc.getD 1 0) + acc.getD 6 0 + smallSigma0 (acc.getD 14 0) +
              acc.getD 15 0) :: acc)

/-- Compress one 16-word block into the running hash state. -/
def compressBlock (hs : Sha8) (ws : List Nat) : Sha8 :=
  let sched := extendSchedule 48 ws.reverse
  let s := roundsAll hs (sha256K.zip sched)
  ⟨w32 (hs.a + s.a), w32 (hs.b + s.b), w32 (hs.c + s.c), w32 (hs.d + s.d),
   w32 (hs.e + s.e), w32 (hs.f + s.f), w32 (hs.g + s.g), w32 (hs.hh + s.hh)⟩

/-- Process a padded message, 16 words at a time. -/
def processBlocks (hs : Sha8) : List Nat → Sha8
  | w0 :: w1 :: w2 :: w3 :: w4 :: w5 :: w6 :: w7 ::
    w8 :: w9 :: w10 :: w11 :: w12 :: w13 :: w14 :: w15 :: rest =>
      processBlocks
        (compressBlock hs [w0, w1, w2, w3, w4, w5, w6, w7,
                           w8, w9, w10, w11, w12, w13, w14, w15]) rest
  | _ => hs

/-- Big-endian 8-byte encoding of a 64-bit value. -/
def be64 (n : Nat) : List Nat :=
  [n / 72057594037927936 % 256, n / 281474976710656 % 256,
   n / 1099511627776 % 256, n / 4294967296 % 256,
   n / 16777216 % 256, n / 65536 % 256, n / 256 % 256, n % 256]

/-- SHA-256 padding: `0x80`, zeros to 56 mod 64, then the bit length. -/
def sha256Pad (msg : List Nat) : List Nat :=
  msg ++ 0x80 :: List.replicate ((119 - msg.length % 64) % 64) 0 ++
    be64 (8 * msg.length % 18446744073709551616)

/-- Group bytes into big-endian 32-bit words. -/
def bytesToWords : List Nat → List Nat
  | a :: b :: c :: d :: rest => (((a * 256 + b) * 256 + c) * 256 + d) :: bytesToWords rest
  | _ => []

/-- Big-endian 4-byte encoding of a 32-bit word. -/
def wordBE (x : Nat) : List Nat :=
  [x / 16777216 % 256, x / 65536 % 256, x / 256 % 256, x % 256]

/-- Serialize the final state as the 32-byte digest. -/
def sha8Bytes (s : Sha8) : List Nat :=
  wordBE s.a ++ wordBE s.b ++ wordBE s.c ++ wordBE s.d ++
  wordBE s.e ++ wordBE s.f ++ wordBE s.g ++ wordBE s.hh

/-- SHA-256 of a byte list. -/
def sha256 (msg : List Nat) : List Nat :=
  sha8Bytes (processBlocks sha256Init (bytesToWords (sha256Pad msg)))

/-- HMAC-SHA256 with a 64-byte block size. -/
def hmacSha256 (key msg : List Nat) : List Nat :=
  let k0 := if 64 < key.length then sha256 key else key
  let kp := k0 ++ List.replicate (64 - k0.length) 0
  sha256 ((kp.map (fun b => b ^^^ 0x5c)) ++
          sha256 ((kp.map (fun b => b ^^^ 0x36)) ++ msg))

/-- The first 32-byte HKDF-SHA256 output block for a nil salt, as produced
by `hkdf.New(sha256.New, secret, nil, info)` when exactly 32 bytes are
read: `T(1) = HMAC(HMAC(zeros32, secret), info ++ [0x01])`. -/
def hkdfSha256Expand32 (secret info : List Nat) : List Nat :=
  hmacSha256 (hmacSha256 (List.replicate 32 0) secret) (info ++ [1])

/-! ### The hashing package (`hashing/hashing.go`) -/

/-- `big.Int.Bytes()`: minimal big-endian byte encoding, empty for zero.
Implemented with a fuel argument so it reduces by kernel computation. -/
def natToBytesBEFuel : Nat → Nat → List Nat → List Nat
  | 0, _, acc => acc
  | fuel + 1, n, acc => if n == 0 then acc else natToBytesBEFuel fuel (n / 256) (n % 256 :: acc)

def natToBytesBE (n : Nat) : List Nat := natToBytesBEFuel (n + 1) n []

/-- UTF-8 encoding of one character, as Go's `[]byte(string)` produces. -/
def utf8EncodeChar (c : Char) : List Nat :=
  let n := c.toNat
  if n < 0x80 then [n]
  else if n < 0x800 then [0xC0 + n / 64, 0x80 + n % 64]
  else if n < 0x10000 then [0xE0 + n / 4096, 0x80 + n / 64 % 64, 0x80 + n % 64]
  else [0xF0 + n / 262144, 0x80 + n / 4096 % 64, 0x80 + n / 64 % 64, 0x80 + n % 64]

/-- Go `[]byte(smsMessage)`: UTF-8 bytes of the string. -/
def utf8Encode (s : GoString) : List Nat := (s.map utf8EncodeChar).flatten

/-- `crypto/ecdsa.PublicKey` as used by the repository: the point
coordinates and the name of the curve the parsed key declares
(`publicKey.Curve.Params().Name`). -/
structure ECDSAPublicKey where
  x : Nat
  y : Nat
  curveName : String
  deriving DecidableEq, Repr

/-- `crypto/ecdsa.PrivateKey` as used by the repository: only the scalar
`D` is read. -/
structure PrivateKey where
  d : Nat
  deriving DecidableEq, Repr

/-- The result of `x509.ParsePKIXPublicKey` when it succeeds: either an
ECDSA public key or some other key type (RSA, Ed25519, ...), which the
repository's type assertion rejects. -/
inductive ParsedKey where
  | ecdsa (k : ECDSAPublicKey)
  | other
  deriving DecidableEq, Repr

/-- External collaborators of the hashing package (Go standard library and
`crypto/elliptic` internals): the base64 decoder, the PKIX parser and the
curve scalar multiplication.  All theorems quantify over these. -/
structure HashingExt where
  base64Decode : String → Except Terror (List Nat)
  parsePKIX : List Nat → Except Terror ParsedKey
  scalarMult : Nat → Nat → List Nat → Nat × Nat

/-- The P-384 prime `2^384 - 2^128 - 2^96 + 2^32 - 1`. -/
def p384P : Nat :=
  39402006196394479212279040100143613805079739270465446667948293404245721771496870329047266088258938001861606973112319

/-- The P-384 curve coefficient `b`. -/
def p384B : Nat :=
  27580193559959705877849011840389048093056905856361568521428707301988689241309860865136260764883745107765439761230575

/-- `elliptic.P384().IsOnCurve`: whether `y² ≡ x³ - 3x + b (mod p)` on the
P-384 curve (the Go 1.17 generic `CurveParams.IsOnCurve` polynomial
check). -/
def isOnCurveP384 (x y : Nat) : Bool :=
  y * y % p384P == (x * x * x + (p384P - 3) * x + p384B) % p384P

/-- `hashing.deriveHashForSMSMessage`: run the HKDF and read 32 bytes; the
read fails only if more than `255 * 32` bytes were requested (the HKDF
stream limit), which the fixed request of 32 bytes never hits. -/
def deriveHashForSMSMessage (sharedSecret smsMessageContent : List Nat) :
    Except Terror (List Nat) :=
  if 32 ≤ 255 * 32 then .ok (hkdfSha256Expand32 sharedSecret smsMessageContent)
  else .error (.internalService "unexpected EOF")

/-- `hashing.ecdhDeriveSecret`: validate the public point is on P-384,
failing with `PreconditionFailed` carrying the coordinates and the parsed
key's curve name; otherwise scalar-multiply and serialize the x-coordinate
with `big.Int.Bytes()`. -/
def ecdhDeriveSecret (ext : HashingExt) (privateKey : PrivateKey)
    (publicKey : ECDSAPublicKey) : Except Terror (List Nat) :=
  if !isOnCurveP384 publicKey.x publicKey.y then
    .error (.preconditionFailed
      "Verified SMS Public Keys should be on curve secp384r1 (elliptic.P384) but this public key is not on this curve."
      [("public_key.x", toString publicKey.x),
       ("public_key.y", toString publicKey.y),
       ("public_key.curve_name", publicKey.curveName)])
  else
    .ok (natToBytesBE (ext.scalarMult publicKey.x publicKey.y
          (natToBytesBE privateKey.d)).1)

/-- `hashing.getPublicKeyFromPublicKeyPayload`: base64-decode, parse as a
PKIX public key, and type-assert to ECDSA. -/
def getPublicKeyFromPublicKeyPayload (ext : HashingExt) (publicKeyPayload : String) :
    Except Terror ECDSAPublicKey :=
  match ext.base64Decode publicKeyPayload with
  | .error e => .error e
  | .ok publicKeyBytes =>
    match ext.parsePKIX publicKeyBytes with
    | .error e => .error e
    | .ok (.ecdsa k) => .ok k
    | .ok .other => .error (.internalService "failed to unmarshal into ECDSA")

/-- `hashing.GetHashForSMSMessage`: decode the public key, derive the ECDH
shared secret, derive the message hash. -/
def GetHashForSMSMessage (ext : HashingExt) (publicKeyString : String)
    (agentPrivateKey : PrivateKey) (smsMessage : List Nat) :
    Except Terror (List Nat) :=
  match getPublicKeyFromPublicKeyPayload ext publicKeyString with
  | .error e => .error e
  | .ok publicKey =>
    match ecdhDeriveSecret ext agentPrivateKey publicKey with
    | .error e => .error e
    | .ok sharedSecret => deriveHashForSMSMessage sharedSecret smsMessage

/-! ### The orchestrator (`verified-sms.go`) -/

/-- The standard base64 alphabet. -/
def base64Alphabet : List Char :=
  "ABCDEFGHIJKLMNOPQRSTUVWXYZabcdefghijklmnopqrstuvwxyz0123456789+/".toList

def base64Digit (n : Nat) : Char := base64Alphabet.getD n 'A'

/-- Standard base64 encoding with padding, three input bytes at a time. -/
def base64EncodeGroups : List Nat → List Char
  | a :: b :: c :: rest =>
      base64Digit (a / 4) :: base64Digit (a % 4 * 16 + b / 16) ::
      base64Digit (b % 16 * 4 + c / 64) :: base64Digit (c % 64) ::
      base64EncodeGroups rest
  | [a, b] =>
      [base64Digit (a / 4), base64Digit (a % 4 * 16 + b / 16),
       base64Digit (b % 16 * 4), '=']
  | [a] => [base64Digit (a / 4), base64Digit (a % 4 * 16), '=', '=']
  | [] => []

/-- Go `base64.StdEncoding.EncodeToString`. -/
def base64EncodeToString (bs : List Nat) : String :=
  String.mk (base64EncodeGroups bs)

/-- One entry of the key-lookup response (`verifiedSMSResponseUserKeys`). -/
structure UserKeyEntry where
  phoneNumber : String
  publicKey : String
  deriving DecidableEq, Repr

/-- The decoded key-lookup response body (`verifiedSMSResponse`). -/
structure VerifiedSMSResponse where
  userKeys : List UserKeyEntry
  deriving DecidableEq, Repr

/-- One entry of the hash-submission batch (`messageSubmissionToGoogle`). -/
structure MessageSubmission where
  hash : String
  agentId : String
  deriving DecidableEq, Repr

/-- The HTTP response to the key-lookup call, as far as the repository
inspects it: the numeric status code, the status text and the outcome of
JSON-decoding the body into `verifiedSMSResponse`. -/
structure LookupHttpResp where
  statusCode : Nat
  status : String
  bodyDecode : Except Terror VerifiedSMSResponse

/-- The HTTP response to the hash-submission call: only status code and
status text are inspected. -/
structure SubmitHttpResp where
  statusCode : Nat
  status : String
  deriving Repr

/-- External collaborators of `verified-sms.go`: the hashing package's
externals, the OAuth2 client construction (`oauth2.GetHttpClient`, which
can fail while decoding the service-account JSON) and the two network
`client.Do` calls.  `json.Marshal` of the request structs and
`http.NewRequest` with the constant URLs cannot fail and are elided. -/
structure PartnerEnv where
  hashing : HashingExt
  getHttpClient : Except Terror Unit
  lookupDo : Except Terror LookupHttpResp
  submitDo : Except Terror SubmitHttpResp

/-- The `Agent` struct: ID and private key. -/
structure Agent where
  id : String
  privateKey : PrivateKey

/-- The filtering loop at the end of `GetPhoneNumberPublicKeys`: keep, in
response order, the public keys of entries whose phone number equals the
query. -/
def collectPublicKeys (phoneNumber : String) : List UserKeyEntry → List String
  | [] => []
  | k :: rest =>
      if k.phoneNumber == phoneNumber then
        k.publicKey :: collectPublicKeys phoneNumber rest
      else collectPublicKeys phoneNumber rest

/-- `Partner.GetPhoneNumberPublicKeys`: build the lookup request, obtain
the OAuth2 client, perform the call, check the status range, decode the
body and filter the entries down to the queried phone number. -/
def GetPhoneNumberPublicKeys (env : PartnerEnv) (phoneNumber : String) :
    Except Terror (List String) :=
  match env.getHttpClient with
  | .error e => .error e
  | .ok _ =>
    match env.lookupDo with
    | .error e => .error e
    | .ok resp =>
      if resp.statusCode < 200 || 299 < resp.statusCode then
        .error (.internalService ("bad response from Google: " ++ resp.status))
      else
        match resp.bodyDecode with
        | .error e => .error e
        | .ok response => .ok (collectPublicKeys phoneNumber response.userKeys)

/-- Observable side effects of one `MarkSMSAsVerified` call, in program
order: the variant expansion, each hash-derivation attempt, and the
hash-submission request actually going out on the wire (`client.Do` on
the batchCreate request). -/
inductive Ev where
  | expandEv (iterations : List GoString)
  | hashEv (publicKey : String) (message : GoString)
  | submitEv (messages : List MessageSubmission)
  deriving DecidableEq, Repr

/-- The inner loop of `MarkSMSAsVerified` for one public key: derive the
hash of each message variant in order, stopping at the first failure;
also records one `hashEv` per attempt. -/
def hashesForKey (ext : HashingExt) (agent : Agent) (publicKey : String) :
    List GoString → Except Terror (List MessageSubmission) × List Ev
  | [] => (.ok [], [])
  | m :: ms =>
    match GetHashForSMSMessage ext publicKey agent.privateKey (utf8Encode m) with
    | .error e => (.error e, [.hashEv publicKey m])
    | .ok hash =>
      match hashesForKey ext agent publicKey ms with
      | (.error e, evs) => (.error e, .hashEv publicKey m :: evs)
      | (.ok rest, evs) =>
          (.ok ({ hash := base64EncodeToString hash, agentId := agent.id } :: rest),
           .hashEv publicKey m :: evs)

/-- The nested loops of `MarkSMSAsVerified`: outer over public keys in
resolution order, inner over message variants in expansion order,
appending one submission entry per derived hash. -/
def computeAllHashes (ext : HashingExt) (agent : Agent) :
    List String → List GoString → Except Terror (List MessageSubmission) × List Ev
  | [], _ => (.ok [], [])
  | key :: keys, msgs =>
    match hashesForKey ext agent key msgs with
    | (.error e, evs) => (.error e, evs)
    | (.ok subs, evs) =>
      match computeAllHashes ext agent keys msgs with
      | (.error e, evs2) => (.error e, evs ++ evs2)
      | (.ok rest, evs2) => (.ok (subs ++ rest), evs ++ evs2)

/-- `Partner.MarkSMSAsVerified`, returning the Go `(bool, error)` pair as
an `Except` (error cases all return `false` in Go) together with the list
of observable events.  Control flow follows the source: resolve keys
(propagating failure), return `(false, nil)` on an empty key set, expand
the message, derive all hashes (aborting on the first failure), marshal
and build the request, obtain the OAuth2 client, send the batch, and map
the response status to the result. -/
def MarkSMSAsVerified (env : PartnerEnv) (phoneNumber : String) (agent : Agent)
    (smsMessage : GoString) : Except Terror Bool × List Ev :=
  match GetPhoneNumberPublicKeys env phoneNumber with
  | .error e => (.error e, [])
  | .ok publicKeys =>
    if publicKeys.length == 0 then (.ok false, [])
    else
      let smsMessages := GetAllIterationsOfSMSMessage smsMessage
      match computeAllHashes env.hashing agent publicKeys smsMessages with
      | (.error e, evs) => (.error e, .expandEv smsMessages :: evs)
      | (.ok messagesToGoogle, evs) =>
        match env.getHttpClient with
        | .error e => (.error e, .expandEv smsMessages :: evs)
        | .ok _ =>
          let evs2 := (Ev.expandEv smsMessages :: evs) ++ [.submitEv messagesToGoogle]
          match env.submitDo with
          | .error e => (.error e, evs2)
          | .ok httpResponse =>
            if httpResponse.statusCode < 200 || 299 < httpResponse.statusCode then
              (.error (.internalService
                ("bad response from Google: " ++ httpResponse.status)), evs2)
            else (.ok true, evs2)

/-! ### Helper definitions and lemmas -/

/-- The success value of a hash derivation, defaulting to `[]` (only ever
read under a proof that the derivation succeeded). -/
def okD : Except Terror (List Nat) → List Nat
  | .ok h => h
  | .error _ => []

/-- Statement-side definition following the words of the spec for the
batch-refinement claim: one submission entry per (key, variant) pair, in
deterministic nested order — outer loop over keys in resolution order,
inner loop over variants in expansion order — each entry pairing the
base64 hash with the agent ID. -/
def specOrderedBatch (ext : HashingExt) (agent : Agent) (keys : List String)
    (msgs : List GoString) : List MessageSubmission :=
  (keys.map (fun key => msgs.map (fun m =>
    ({ hash := base64EncodeToString
         (okD (GetHashForSMSMessage ext key agent.privateKey (utf8Encode m))),
       agentId := agent.id } : MessageSubmission)))).flatten

/-! ### Witness fixtures: concrete environments for the claims -/

/-- A trivial instantiation of the external collaborators. -/
def trivialExt : HashingExt :=
  ⟨fun _ => .error (.internalService "decode failed"),
   fun _ => .ok .other,
   fun _ _ _ => (0, 0)⟩

/-- A shared agent value for the witnesses. -/
def agentW : Agent := ⟨"agent", ⟨1⟩⟩

/-- A lookup environment returning one key whose hash derivation fails
(the base64 decoder rejects the payload). -/
def oneKeyFailEnv : PartnerEnv :=
  ⟨trivialExt, .ok (),
   .ok ⟨200, "200 OK", .ok ⟨[⟨"+447700900461", "k"⟩]⟩⟩,
   .ok ⟨200, "200 OK"⟩⟩

/-- A lookup environment resolving no keys at all. -/
def emptyKeysEnv : PartnerEnv :=
  ⟨trivialExt, .ok (), .ok ⟨200, "200 OK", .ok ⟨[]⟩⟩, .ok ⟨200, "200 OK"⟩⟩

/-- Whether a hash-derivation result, when successful, is exactly 32
bytes long. -/
def hashLen32 : Except Terror (List Nat) → Prop
  | .ok h => h.length = 32
  | .error _ => True

/-- P-384 base point x-coordinate, used to build an on-curve witness key. -/
def p384Gx : Nat :=
  26247035095799689268623156744566981891852923491109213387815615900925518854738050089022388053975719786650872476732087

/-- P-384 base point y-coordinate. -/
def p384Gy : Nat :=
  8325710961489029985546751289520108179287853048861315594709205902480503199884419224438643760392947333078086511627871

/-- External collaborators for the all-success witness: decoding and
parsing yield the P-384 base point, scalar multiplication returns the
point at zero. -/
def okExt : HashingExt :=
  ⟨fun _ => .ok [],
   fun _ => .ok (.ecdsa ⟨p384Gx, p384Gy, "P-384"⟩),
   fun _ _ _ => (0, 0)⟩

/-- Environment in which lookup resolves one key and every step of the
verification succeeds. -/
def okEnv : PartnerEnv :=
  ⟨okExt, .ok (),
   .ok ⟨200, "200 OK", .ok ⟨[⟨"+447700900461", "k"⟩]⟩⟩,
   .ok ⟨200, "200 OK"⟩⟩

/-- A lookup response holding one entry for another phone number and one
entry for the queried number. -/
def mixedResp : LookupHttpResp :=
  ⟨200, "200 OK", .ok ⟨[⟨"+440000000000", "k1"⟩, ⟨"+447700900461", "k2"⟩]⟩⟩

/-- Environment serving `mixedResp` to the lookup. -/
def mixedEnv : PartnerEnv :=
  ⟨trivialExt, .ok (), .ok mixedResp, .ok ⟨200, "200 OK"⟩⟩

/-- The batch actually submitted in the all-success witness environment:
the single HKDF-SHA256 hash of `"hi"` under the zero shared secret. -/
def okEnvBatch : List MessageSubmission :=
  [⟨"jfP5GSplAG3aqlTNeNChKMTPeJn+F7Cvsg5UCtJpYnc=", "agent"⟩]

/-- External collaborators whose parse step yields a non-EC key. -/
def nonEcExt : HashingExt :=
  ⟨fun _ => .ok [0], fun _ => .ok .other, fun _ _ _ => (0, 0)⟩

/-- The output of SHA-256 is always 32 bytes. -/
theorem sha256_length (msg : List Nat) : (sha256 msg).length = 32 := by
  simp [sha256, sha8Bytes, wordBE]

/-- The output of HMAC-SHA256 is always 32 bytes. -/
theorem hmacSha256_length (key msg : List Nat) : (hmacSha256 key msg).length = 32 := by
  simp [hmacSha256, sha256_length]

/-- The HKDF output block is 32 bytes. -/
theorem hkdfSha256Expand32_length (secret info : List Nat) :
    (hkdfSha256Expand32 secret info).length = 32 := by
  simp [hkdfSha256Expand32, hmacSha256_length]

/-- The hash derivation step never fails and yields the HKDF block. -/
theorem deriveHashForSMSMessage_eq (sharedSecret msg : List Nat) :
    deriveHashForSMSMessage sharedSecret msg = .ok (hkdfSha256Expand32 sharedSecret msg) := rfl

/-- Dropping leading whitespace does nothing when the head is no space. -/
theorem dropWhile_eq_self_of_head (l : List Char)
    (h : l.head?.all (fun c => !isSpaceGo c) = true) :
    l.dropWhile isSpaceGo = l := by
  cases l with
  | nil => rfl
  | cons c t =>
      simp only [List.head?_cons, Option.all_some, Bool.not_eq_true'] at h
      simp [List.dropWhile, h]

/-- `strings.TrimSpace` is the identity on a string with no leading and no
trailing whitespace. -/
theorem trimSpace_eq_self (msg : GoString)
    (h1 : msg.head?.all (fun c => !isSpaceGo c) = true)
    (h2 : msg.getLast?.all (fun c => !isSpaceGo c) = true) :
    trimSpace msg = msg := by
  unfold trimSpace
  rw [dropWhile_eq_self_of_head msg h1]
  rw [dropWhile_eq_self_of_head msg.reverse (by rw [List.head?_reverse]; exact h2)]
  exact List.reverse_reverse msg

/-- The inner hash loop records only hash-derivation events. -/
theorem hashesForKey_no_submit (ext : HashingExt) (agent : Agent) (key : String) :
    ∀ (msgs : List GoString) (ms : List MessageSubmission),
      Ev.submitEv ms ∉ (hashesForKey ext agent key msgs).2 := by
  intro msgs
  induction msgs with
  | nil => intro ms; simp [hashesForKey]
  | cons m rest ih =>
    intro ms
    have ih2 := ih ms
    unfold hashesForKey
    rcases hg : GetHashForSMSMessage ext key agent.privateKey (utf8Encode m) with e | hsh <;>
      simp only [hg]
    · simp
    · rcases hr : hashesForKey ext agent key rest with ⟨r, evs⟩
      rw [hr] at ih2
      cases r <;> simp_all

/-- The nested hash loops record only hash-derivation events. -/
theorem computeAllHashes_no_submit (ext : HashingExt) (agent : Agent) :
    ∀ (keys : List String) (msgs : List GoString) (ms : List MessageSubmission),
      Ev.submitEv ms ∉ (computeAllHashes ext agent keys msgs).2 := by
  intro keys
  induction keys with
  | nil => intro msgs ms; simp [computeAllHashes]
  | cons key rest ih =>
    intro msgs ms
    have h1 := hashesForKey_no_submit ext agent key msgs ms
    have h2 := ih msgs ms
    unfold computeAllHashes
    rcases hk : hashesForKey ext agent key msgs with ⟨r, evs⟩
    rw [hk] at h1
    cases r with
    | error e => simpa using h1
    | ok subs =>
      rcases hc : computeAllHashes ext agent rest msgs with ⟨r2, evs2⟩
      rw [hc] at h2
      cases r2 <;> simp_all

/-- When the inner loop succeeds, its output is one submission per
variant in order, and every variant's hash derivation succeeded. -/
theorem hashesForKey_ok (ext : HashingExt) (agent : Agent) (key : String) :
    ∀ (msgs : List GoString) (subs : List MessageSubmission) (evs : List Ev),
      hashesForKey ext agent key msgs = (.ok subs, evs) →
      subs = msgs.map (fun m =>
        ({ hash := base64EncodeToString
             (okD (GetHashForSMSMessage ext key agent.privateKey (utf8Encode m))),
           agentId := agent.id } : MessageSubmission)) ∧
      ∀ m ∈ msgs, ∃ hsh,
        GetHashForSMSMessage ext key agent.privateKey (utf8Encode m) = .ok hsh := by
  intro msgs
  induction msgs with
  | nil =>
    intro subs evs h
    simp only [hashesForKey, Prod.mk.injEq, Except.ok.injEq] at h
    obtain ⟨h1, -⟩ := h
    subst h1
    simp
  | cons m rest ih =>
    intro subs evs h
    unfold hashesForKey at h
    rcases hg : GetHashForSMSMessage ext key agent.privateKey (utf8Encode m) with e | hsh <;>
      rw [hg] at h <;> dsimp only at h
    · simp at h
    · rcases hr : hashesForKey ext agent key rest with ⟨r, evs1⟩
      rw [hr] at h
      cases r with
      | error e => simp at h
      | ok rsubs =>
        simp only [Prod.mk.injEq, Except.ok.injEq] at h
        obtain ⟨h1, -⟩ := h
        obtain ⟨ihm, ihall⟩ := ih rsubs evs1 hr
        subst h1
        constructor
        · simp [List.map_cons, ihm, hg, okD]
        · intro m2 hm2
          rcases List.mem_cons.mp hm2 with rfl | hm2
          · exact ⟨hsh, hg⟩
          · exact ihall m2 hm2

/-- When the nested loops succeed, the batch is exactly the nested-order
batch described by the spec and every (key, variant) derivation
succeeded. -/
theorem computeAllHashes_ok (ext : HashingExt) (agent : Agent) :
    ∀ (keys : List String) (msgs : List GoString) (subs : List MessageSubmission)
      (evs : List Ev),
      computeAllHashes ext agent keys msgs = (.ok subs, evs) →
      subs = specOrderedBatch ext agent keys msgs ∧
      ∀ key ∈ keys, ∀ m ∈ msgs, ∃ hsh,
        GetHashForSMSMessage ext key agent.privateKey (utf8Encode m) = .ok hsh := by
  intro keys
  induction keys with
  | nil =>
    intro msgs subs evs h
    simp only [computeAllHashes, Prod.mk.injEq, Except.ok.injEq] at h
    obtain ⟨h1, -⟩ := h
    subst h1
    simp [specOrderedBatch]
  | cons key rest ih =>
    intro msgs subs evs h
    unfold computeAllHashes at h
    rcases hk : hashesForKey ext agent key msgs with ⟨r, evs1⟩
    rw [hk] at h
    cases r with
    | error e => simp at h
    | ok ksubs =>
      rcases hc : computeAllHashes ext agent rest msgs with ⟨r2, evs2⟩
      rw [hc] at h
      cases r2 with
      | error e => simp at h
      | ok rsubs =>
        simp only [Prod.mk.injEq, Except.ok.injEq] at h
        obtain ⟨h1, -⟩ := h
        obtain ⟨hkm, hkall⟩ := hashesForKey_ok ext agent key msgs ksubs evs1 hk
        obtain ⟨ihm, ihall⟩ := ih msgs rsubs evs2 hc
        subst h1
        constructor
        · simp [specOrderedBatch, hkm, ihm]
        · intro key2 hkey2 m hm
          rcases List.mem_cons.mp hkey2 with rfl | hkey2
          · exact hkall m hm
          · exact ihall key2 hkey2 m hm

/-- The nested-order batch has one entry per (key, variant) pair. -/
theorem specOrderedBatch_length (ext : HashingExt) (agent : Agent)
    (keys : List String) (msgs : List GoString) :
    (specOrderedBatch ext agent keys msgs).length = keys.length * msgs.length := by
  induction keys with
  | nil => simp [specOrderedBatch]
  | cons key rest ih =>
    simp only [specOrderedBatch, List.map_cons, List.flatten_cons, List.length_append,
      List.length_map, List.length_cons] at ih ⊢
    rw [ih]
    ring

/-- Every entry of the nested-order batch carries the agent's ID. -/
theorem specOrderedBatch_agentId (ext : HashingExt) (agent : Agent)
    (keys : List String) (msgs : List GoString) :
    ∀ s ∈ specOrderedBatch ext agent keys msgs, s.agentId = agent.id := by
  intro s hs
  simp only [specOrderedBatch, List.mem_flatten, List.mem_map] at hs
  obtain ⟨l, ⟨key, -, rfl⟩, hl⟩ := hs
  obtain ⟨m, -, rfl⟩ := List.mem_map.mp hl
  rfl

/-- Structure of a member of the nested-order batch: it is the hash of
some key and some variant, paired with the agent ID. -/
theorem specOrderedBatch_mem (ext : HashingExt) (agent : Agent)
    (keys : List String) (msgs : List GoString) (s : MessageSubmission)
    (hs : s ∈ specOrderedBatch ext agent keys msgs) :
    ∃ key ∈ keys, ∃ m ∈ msgs,
      s = { hash := base64EncodeToString
              (okD (GetHashForSMSMessage ext key agent.privateKey (utf8Encode m))),
            agentId := agent.id } := by
  simp only [specOrderedBatch, List.mem_flatten, List.mem_map] at hs
  obtain ⟨l, ⟨key, hkey, rfl⟩, hl⟩ := hs
  obtain ⟨m, hm, rfl⟩ := List.mem_map.mp hl
  exact ⟨key, hkey, m, hm, rfl⟩

/-- Inversion of a successful `MarkSMSAsVerified` call: the key lookup
succeeded, every hash derivation succeeded, and the event trace is the
expansion, the hash derivations, and the submission of that batch. -/
theorem mark_ok_true_inv (env : PartnerEnv) (phone : String) (agent : Agent)
    (msg : GoString)
    (hres : (MarkSMSAsVerified env phone agent msg).1 = .ok true) :
    ∃ keys subs evs,
      GetPhoneNumberPublicKeys env phone = .ok keys ∧
      computeAllHashes env.hashing agent keys (GetAllIterationsOfSMSMessage msg) =
        (.ok subs, evs) ∧
      (MarkSMSAsVerified env phone agent msg).2 =
        (Ev.expandEv (GetAllIterationsOfSMSMessage msg) :: evs) ++ [Ev.submitEv subs] := by
  unfold MarkSMSAsVerified at hres ⊢
  rcases hkeys : GetPhoneNumberPublicKeys env phone with e | keys <;>
    simp only [hkeys] at hres ⊢
  · simp at hres
  · by_cases hlen : (keys.length == 0) = true
    · simp [hlen] at hres
    · simp only [Bool.not_eq_true] at hlen
      rw [hlen, if_neg Bool.false_ne_true] at hres ⊢
      rcases hc : computeAllHashes env.hashing agent keys (GetAllIterationsOfSMSMessage msg)
        with ⟨r, evs⟩
      rw [hc] at hres
      cases r with
      | error e => simp at hres
      | ok subs =>
        refine ⟨keys, subs, evs, rfl, hc, ?_⟩
        dsimp only at hres ⊢
        rcases hg : env.getHttpClient with e | u <;> simp only [hg] at hres ⊢
        · simp at hres
        · rcases hs : env.submitDo with e | resp <;> simp only [hs] at hres ⊢
          all_goals first
            | rfl
            | (split <;> rfl)

/-- Inversion of a submission event: a submission goes on the wire only
after a successful lookup and a fully successful hash batch, and the
submitted batch is that hash batch. -/
theorem mark_submit_inv (env : PartnerEnv) (phone : String) (agent : Agent)
    (msg : GoString) (b : List MessageSubmission)
    (hmem : Ev.submitEv b ∈ (MarkSMSAsVerified env phone agent msg).2) :
    ∃ keys evs,
      GetPhoneNumberPublicKeys env phone = .ok keys ∧
      computeAllHashes env.hashing agent keys (GetAllIterationsOfSMSMessage msg) =
        (.ok b, evs) := by
  unfold MarkSMSAsVerified at hmem
  rcases hkeys : GetPhoneNumberPublicKeys env phone with e | keys <;>
    simp only [hkeys] at hmem
  · simp at hmem
  · by_cases hlen : (keys.length == 0) = true
    · simp [hlen] at hmem
    · simp only [Bool.not_eq_true] at hlen
      rw [hlen, if_neg Bool.false_ne_true] at hmem
      rcases hc : computeAllHashes env.hashing agent keys (GetAllIterationsOfSMSMessage msg)
        with ⟨r, evs⟩
      rw [hc] at hmem
      have hnos := computeAllHashes_no_submit env.hashing agent keys
        (GetAllIterationsOfSMSMessage msg) b
      rw [hc] at hnos
      cases r with
      | error e =>
        dsimp only at hmem
        simp only [List.mem_cons] at hmem
        rcases hmem with h | h
        · cases h
        · exact absurd h hnos
      | ok subs =>
        have hb : b = subs := by
          dsimp only at hmem
          rcases hg : env.getHttpClient with e | u <;> simp only [hg] at hmem
          · simp only [List.mem_cons] at hmem
            rcases hmem with h | h
            · cases h
            · exact absurd h hnos
          · rcases hs : env.submitDo with e | resp <;> simp only [hs] at hmem
            · simp only [List.cons_append, List.mem_cons, List.mem_append,
                List.not_mem_nil, or_false] at hmem
              rcases hmem with h | h | h
              · cases h
              · exact absurd h hnos
              · exact Ev.submitEv.inj h
            · split at hmem <;>
                · simp only [List.cons_append, List.mem_cons, List.mem_append,
                    List.not_mem_nil, or_false] at hmem
                  rcases hmem with h | h | h
                  · cases h
                  · exact absurd h hnos
                  · exact Ev.submitEv.inj h
        subst hb
        exact ⟨keys, evs, rfl, hc⟩

/-! ### The claims -/

/-- Claim C1 (code bug): the spec says that when trimming changes the
message the *trimmed* form is appended and the returned sequence holds no
duplicates, but the source of `GetAllIterationsOfSMSMessage` appends the
*original* message again: on `"  hello  "` the code yields the duplicate
pair `["  hello  ", "  hello  "]`, the trimmed form `"hello"` is not in
the result, and the second entry differs from the trimmed form. -/
theorem c1_trimmed_variant_code_bug :
    GetAllIterationsOfSMSMessage "  hello  ".toList =
      ["  hello  ".toList, "  hello  ".toList] ∧
    trimSpace "  hello  ".toList = "hello".toList ∧
    "hello".toList ∉ GetAllIterationsOfSMSMessage "  hello  ".toList := by
  decide

/-- Claim C6: `GetAllIterationsOfSMSMessage` always returns a non-empty
sequence whose first element is the input itself, and when the input has
no leading and no trailing whitespace the sequence has exactly one
element. -/
theorem c6_expand_invariant (msg : GoString) :
    (GetAllIterationsOfSMSMessage msg).head? = some msg ∧
    GetAllIterationsOfSMSMessage msg ≠ [] ∧
    (msg.head?.all (fun c => !isSpaceGo c) = true →
     msg.getLast?.all (fun c => !isSpaceGo c) = true →
     (GetAllIterationsOfSMSMessage msg).length = 1) := by
  refine ⟨?_, ?_, ?_⟩
  · simp only [GetAllIterationsOfSMSMessage]
    split <;> rfl
  · simp only [GetAllIterationsOfSMSMessage]
    split <;> simp
  · intro h1 h2
    unfold GetAllIterationsOfSMSMessage
    rw [if_neg (by simp [trimSpace_eq_self msg h1 h2])]
    rfl

/-- Witness for C6 at the whitespace-free message `"hi"`. -/
theorem c6_expand_invariant_witness :
    (GetAllIterationsOfSMSMessage "hi".toList).head? = some "hi".toList ∧
    (GetAllIterationsOfSMSMessage "hi".toList).length = 1 :=
  ⟨(c6_expand_invariant "hi".toList).1,
   (c6_expand_invariant "hi".toList).2.2 (by decide) (by decide)⟩

/-- Claim C4: a public key whose point does not satisfy the P-384 curve
equation makes `ecdhDeriveSecret` fail with a `PreconditionFailed` error
carrying the offending coordinates and the curve name recorded in the
parsed key (the error message itself names the validation curve
secp384r1), and the result does not depend on the scalar-multiplication
collaborator — no shared secret is ever computed from such a point. -/
theorem c4_off_curve_rejected (ext : HashingExt) (priv : PrivateKey)
    (pub : ECDSAPublicKey) (hoff : isOnCurveP384 pub.x pub.y = false) :
    ecdhDeriveSecret ext priv pub = .error (.preconditionFailed
      "Verified SMS Public Keys should be on curve secp384r1 (elliptic.P384) but this public key is not on this curve."
      [("public_key.x", toString pub.x),
       ("public_key.y", toString pub.y),
       ("public_key.curve_name", pub.curveName)]) ∧
    ∀ ext2 : HashingExt, ecdhDeriveSecret ext2 priv pub = ecdhDeriveSecret ext priv pub := by
  constructor
  · simp [ecdhDeriveSecret, hoff]
  · intro ext2
    simp [ecdhDeriveSecret, hoff]

/-- Witness for C4 at the off-curve point `(1, 1)` declared as a P-256 key. -/
theorem c4_off_curve_rejected_witness :
    ecdhDeriveSecret trivialExt ⟨1⟩ ⟨1, 1, "P-256"⟩ = .error (.preconditionFailed
      "Verified SMS Public Keys should be on curve secp384r1 (elliptic.P384) but this public key is not on this curve."
      [("public_key.x", toString (1 : Nat)),
       ("public_key.y", toString (1 : Nat)),
       ("public_key.curve_name", "P-256")]) ∧
    ∀ ext2 : HashingExt,
      ecdhDeriveSecret ext2 ⟨1⟩ ⟨1, 1, "P-256"⟩ =
        ecdhDeriveSecret trivialExt ⟨1⟩ ⟨1, 1, "P-256"⟩ :=
  c4_off_curve_rejected trivialExt ⟨1⟩ ⟨1, 1, "P-256"⟩ (by decide)

/-- Claim C2: if hash derivation fails for any single (public key,
variant) pair, `MarkSMSAsVerified` returns an error and no submission
request is sent at all — a partial hash batch is never submitted. -/
theorem c2_hash_failure_aborts_submission (env : PartnerEnv) (phone : String)
    (agent : Agent) (msg : GoString) (keys : List String)
    (hkeys : GetPhoneNumberPublicKeys env phone = .ok keys)
    (k : String) (hk : k ∈ keys) (v : GoString)
    (hv : v ∈ GetAllIterationsOfSMSMessage msg) (e : Terror)
    (hfail : GetHashForSMSMessage env.hashing k agent.privateKey (utf8Encode v) =
      .error e) :
    (∃ e2, (MarkSMSAsVerified env phone agent msg).1 = .error e2) ∧
    ∀ ms, Ev.submitEv ms ∉ (MarkSMSAsVerified env phone agent msg).2 := by
  have hlen : (keys.length == 0) = false := by
    cases keys with
    | nil => cases hk
    | cons a t => simp
  unfold MarkSMSAsVerified
  rw [hkeys]
  dsimp only
  rw [hlen, if_neg Bool.false_ne_true]
  rcases hc : computeAllHashes env.hashing agent keys (GetAllIterationsOfSMSMessage msg)
    with ⟨r, evs⟩
  have hnos := computeAllHashes_no_submit env.hashing agent keys
    (GetAllIterationsOfSMSMessage msg)
  rw [hc] at hnos
  cases r with
  | error e2 =>
    refine ⟨⟨e2, rfl⟩, ?_⟩
    intro ms
    simp only [List.mem_cons]
    rintro (h | h)
    · cases h
    · exact absurd h (hnos ms)
  | ok subs =>
    exfalso
    obtain ⟨-, hall⟩ := computeAllHashes_ok env.hashing agent keys
      (GetAllIterationsOfSMSMessage msg) subs evs hc
    obtain ⟨hsh, hok⟩ := hall k hk v hv
    rw [hok] at hfail
    simp at hfail

/-- Witness for C2: one resolved key, derivation fails, the call errors
and nothing is submitted. -/
theorem c2_hash_failure_aborts_submission_witness :
    (∃ e2, (MarkSMSAsVerified oneKeyFailEnv "+447700900461" agentW
      "hello!".toList).1 = .error e2) ∧
    ∀ ms, Ev.submitEv ms ∉
      (MarkSMSAsVerified oneKeyFailEnv "+447700900461" agentW "hello!".toList).2 :=
  c2_hash_failure_aborts_submission oneKeyFailEnv "+447700900461" agentW
    "hello!".toList ["k"] rfl "k" (by simp) "hello!".toList (by decide)
    (.internalService "decode failed") rfl

/-- Claim C3: when key resolution succeeds with zero public keys,
`MarkSMSAsVerified` returns `(false, nil)` with no variant expansion, no
hash derivation and no submission (empty event trace); conversely the
not-supported result `(false, nil)` arises only from an empty key set,
never from a downstream failure. -/
theorem c3_no_keys_returns_false_nil (env : PartnerEnv) (phone : String)
    (agent : Agent) (msg : GoString) :
    (GetPhoneNumberPublicKeys env phone = .ok [] →
      MarkSMSAsVerified env phone agent msg = (.ok false, [])) ∧
    ((MarkSMSAsVerified env phone agent msg).1 = .ok false →
      GetPhoneNumberPublicKeys env phone = .ok []) := by
  constructor
  · intro hkeys
    unfold MarkSMSAsVerified
    rw [hkeys]
    rfl
  · intro hres
    unfold MarkSMSAsVerified at hres
    rcases hkeys : GetPhoneNumberPublicKeys env phone with e | keys <;>
      rw [hkeys] at hres <;> dsimp only at hres
    · simp at hres
    · rcases keys with _ | ⟨a, t⟩
      · rfl
      · exfalso
        have hlen : (((a :: t).length == 0)) = false := by simp
        rw [hlen, if_neg Bool.false_ne_true] at hres
        rcases hc : computeAllHashes env.hashing agent (a :: t)
          (GetAllIterationsOfSMSMessage msg) with ⟨r, evs⟩
        rw [hc] at hres
        cases r with
        | error e2 => simp at hres
        | ok subs =>
          dsimp only at hres
          rcases hg : env.getHttpClient with e2 | u <;> simp only [hg] at hres
          · simp at hres
          · rcases hs : env.submitDo with e2 | resp <;> simp only [hs] at hres
            · simp at hres
            · split at hres <;> simp at hres

/-- Witness for C3: a successful empty lookup yields `(false, nil)` with
an empty event trace. -/
theorem c3_no_keys_returns_false_nil_witness :
    MarkSMSAsVerified emptyKeysEnv "+447700900461" agentW "hello!".toList =
      (.ok false, []) :=
  (c3_no_keys_returns_false_nil emptyKeysEnv "+447700900461" agentW
    "hello!".toList).1 rfl

/-- Claim C5: `GetHashForSMSMessage` is a pure function of its inputs —
two invocations on the identical (public key string, agent private key,
message bytes) triple return the identical result — and whenever it
succeeds the returned hash is exactly 32 bytes. -/
theorem c5_hash_deterministic_32_bytes (ext : HashingExt) (pk : String)
    (priv : PrivateKey) (msg : List Nat) :
    GetHashForSMSMessage ext pk priv msg = GetHashForSMSMessage ext pk priv msg ∧
    hashLen32 (GetHashForSMSMessage ext pk priv msg) := by
  refine ⟨rfl, ?_⟩
  unfold GetHashForSMSMessage
  rcases hpk : getPublicKeyFromPublicKeyPayload ext pk with e | pub
  · simp [hashLen32]
  · rcases hs : ecdhDeriveSecret ext priv pub with e | secret
    · simp [hs, hashLen32]
    · simp [hs, deriveHashForSMSMessage_eq, hashLen32, hkdfSha256Expand32_length]

/-- Claim C7: a successful `MarkSMSAsVerified` call with `k` resolved
keys and `v` message variants submits exactly the nested-order batch of
`k * v` hash entries, each paired with the agent ID: outer loop over
keys in resolution order, inner loop over variants in expansion order. -/
theorem c7_batch_order_and_size (env : PartnerEnv) (phone : String) (agent : Agent)
    (msg : GoString) (keys : List String)
    (hkeys : GetPhoneNumberPublicKeys env phone = .ok keys)
    (hres : (MarkSMSAsVerified env phone agent msg).1 = .ok true) :
    Ev.submitEv (specOrderedBatch env.hashing agent keys
        (GetAllIterationsOfSMSMessage msg)) ∈
      (MarkSMSAsVerified env phone agent msg).2 ∧
    (specOrderedBatch env.hashing agent keys (GetAllIterationsOfSMSMessage msg)).length =
      keys.length * (GetAllIterationsOfSMSMessage msg).length ∧
    ∀ s ∈ specOrderedBatch env.hashing agent keys (GetAllIterationsOfSMSMessage msg),
      s.agentId = agent.id := by
  obtain ⟨keys2, subs, evs, hkeys2, hc, htrace⟩ := mark_ok_true_inv env phone agent msg hres
  rw [hkeys] at hkeys2
  obtain rfl := (Except.ok.inj hkeys2)
  obtain ⟨hsubs, -⟩ := computeAllHashes_ok env.hashing agent keys
    (GetAllIterationsOfSMSMessage msg) subs evs hc
  refine ⟨?_, specOrderedBatch_length _ _ _ _, specOrderedBatch_agentId _ _ _ _⟩
  rw [htrace, ← hsubs]
  simp

/-- Witness for C7: a fully successful call with one key and one variant
submits the nested-order batch. -/
theorem c7_batch_order_and_size_witness :
    Ev.submitEv (specOrderedBatch okEnv.hashing agentW ["k"]
        (GetAllIterationsOfSMSMessage "hi".toList)) ∈
      (MarkSMSAsVerified okEnv "+447700900461" agentW "hi".toList).2 ∧
    (specOrderedBatch okEnv.hashing agentW ["k"]
        (GetAllIterationsOfSMSMessage "hi".toList)).length =
      (["k"] : List String).length * (GetAllIterationsOfSMSMessage "hi".toList).length ∧
    ∀ s ∈ specOrderedBatch okEnv.hashing agentW ["k"]
        (GetAllIterationsOfSMSMessage "hi".toList),
      s.agentId = agentW.id :=
  c7_batch_order_and_size okEnv "+447700900461" agentW "hi".toList ["k"] rfl rfl

/-- The loop of `GetPhoneNumberPublicKeys` keeps exactly the matching
entries, in response order. -/
theorem collectPublicKeys_eq_filter_map (phone : String) :
    ∀ l : List UserKeyEntry,
      collectPublicKeys phone l =
        (l.filter (fun k => k.phoneNumber == phone)).map (fun k => k.publicKey) := by
  intro l
  induction l with
  | nil => rfl
  | cons a t ih =>
    simp only [collectPublicKeys, List.filter_cons]
    by_cases hph : (a.phoneNumber == phone) = true
    · simp [hph, ih]
    · simp only [Bool.not_eq_true] at hph
      simp [hph, ih]

/-- Claim C8: `GetPhoneNumberPublicKeys` returns exactly the `publicKey`
fields of the `userKeys` entries whose `phoneNumber` equals the queried
number, in response order; entries for other numbers are filtered out,
and an empty result is a non-error outcome. -/
theorem c8_lookup_filters_by_phone (env : PartnerEnv) (phone : String)
    (resp : LookupHttpResp) (response : VerifiedSMSResponse)
    (hclient : env.getHttpClient = .ok ())
    (hdo : env.lookupDo = .ok resp)
    (hstatus : 200 ≤ resp.statusCode ∧ resp.statusCode ≤ 299)
    (hbody : resp.bodyDecode = .ok response) :
    GetPhoneNumberPublicKeys env phone =
      .ok ((response.userKeys.filter (fun k => k.phoneNumber == phone)).map
        (fun k => k.publicKey)) := by
  unfold GetPhoneNumberPublicKeys
  rw [hclient]
  dsimp only
  rw [hdo]
  dsimp only
  rw [if_neg (by simp only [Bool.or_eq_true, decide_eq_true_eq]; omega)]
  rw [hbody]
  dsimp only
  rw [collectPublicKeys_eq_filter_map]

/-- Witness for C8 on a response mixing matching and non-matching
entries. -/
theorem c8_lookup_filters_by_phone_witness :
    GetPhoneNumberPublicKeys mixedEnv "+447700900461" =
      .ok ((((⟨[⟨"+440000000000", "k1"⟩, ⟨"+447700900461", "k2"⟩]⟩ :
          VerifiedSMSResponse)).userKeys.filter
            (fun k => k.phoneNumber == "+447700900461")).map
        (fun k => k.publicKey)) :=
  c8_lookup_filters_by_phone mixedEnv "+447700900461" mixedResp
    ⟨[⟨"+440000000000", "k1"⟩, ⟨"+447700900461", "k2"⟩]⟩ rfl rfl
    (by constructor <;> decide) rfl

/-- Claim C9: every element of the variant expansion is string-equal to
the input and the expansion has at most two elements; consequently every
hash entry in a submitted batch is derived from the unmodified original
message text. -/
theorem c9_variants_equal_original (msg : GoString) :
    (∀ x ∈ GetAllIterationsOfSMSMessage msg, x = msg) ∧
    (GetAllIterationsOfSMSMessage msg).length ≤ 2 ∧
    (∀ (env : PartnerEnv) (phone : String) (agent : Agent)
       (b : List MessageSubmission) (s : MessageSubmission),
      Ev.submitEv b ∈ (MarkSMSAsVerified env phone agent msg).2 → s ∈ b →
      ∃ key hsh,
        GetHashForSMSMessage env.hashing key agent.privateKey (utf8Encode msg) =
          .ok hsh ∧
        s.hash = base64EncodeToString hsh) := by
  have hall : ∀ x ∈ GetAllIterationsOfSMSMessage msg, x = msg := by
    simp only [GetAllIterationsOfSMSMessage]
    split
    · intro x hx
      simp only [List.cons_append, List.nil_append, List.mem_cons,
        List.not_mem_nil, or_false] at hx
      rcases hx with rfl | rfl <;> rfl
    · intro x hx
      simp only [List.mem_singleton] at hx
      exact hx
  refine ⟨hall, ?_, ?_⟩
  · simp only [GetAllIterationsOfSMSMessage]
    split <;> simp
  · intro env phone agent b s hmem hs
    obtain ⟨keys, evs, hkeys, hc⟩ := mark_submit_inv env phone agent msg b hmem
    obtain ⟨hsubs, hpairs⟩ := computeAllHashes_ok env.hashing agent keys
      (GetAllIterationsOfSMSMessage msg) b evs hc
    rw [hsubs] at hs
    obtain ⟨key, hkey, m, hm, rfl⟩ := specOrderedBatch_mem env.hashing agent keys
      (GetAllIterationsOfSMSMessage msg) s hs
    obtain rfl := hall m hm
    obtain ⟨hsh, hok⟩ := hpairs key hkey m hm
    refine ⟨key, hsh, hok, ?_⟩
    simp [hok, okD]

/-- Witness for C9: in the all-success environment, the single submitted
hash is derived from the unmodified message `"hi"`. -/
theorem c9_variants_equal_original_witness :
    ∃ key hsh,
      GetHashForSMSMessage okEnv.hashing key agentW.privateKey
        (utf8Encode "hi".toList) = .ok hsh ∧
      (⟨"jfP5GSplAG3aqlTNeNChKMTPeJn+F7Cvsg5UCtJpYnc=", "agent"⟩ :
        MessageSubmission).hash = base64EncodeToString hsh :=
  (c9_variants_equal_original "hi".toList).2.2 okEnv "+447700900461" agentW
    okEnvBatch ⟨"jfP5GSplAG3aqlTNeNChKMTPeJn+F7Cvsg5UCtJpYnc=", "agent"⟩
    (by
      have htr : (MarkSMSAsVerified okEnv "+447700900461" agentW "hi".toList).2 =
          [Ev.expandEv ["hi".toList], Ev.hashEv "k" "hi".toList,
           Ev.submitEv okEnvBatch] := by rfl
      rw [htr]
      simp)
    (by simp [okEnvBatch])

/-- Claim C10: a payload that base64-decodes and parses as a PKIX public
key of a non-elliptic-curve kind makes `GetHashForSMSMessage` return the
repository's InternalService error (a value, not a panic), and a hash is
returned only when the payload decodes to an ECDSA public key whose
point lies on the expected curve P-384. -/
theorem c10_non_ec_key_rejected (ext : HashingExt) (priv : PrivateKey)
    (msg : List Nat) :
    (∀ (payload : String) (bytes : List Nat),
      ext.base64Decode payload = .ok bytes →
      ext.parsePKIX bytes = .ok .other →
      GetHashForSMSMessage ext payload priv msg =
        .error (.internalService "failed to unmarshal into ECDSA")) ∧
    (∀ payload : String,
      (¬ ∃ bytes k, ext.base64Decode payload = .ok bytes ∧
        ext.parsePKIX bytes = .ok (.ecdsa k) ∧ isOnCurveP384 k.x k.y = true) →
      ∀ hsh, GetHashForSMSMessage ext payload priv msg ≠ .ok hsh) := by
  constructor
  · intro payload bytes hd hp
    unfold GetHashForSMSMessage getPublicKeyFromPublicKeyPayload
    rw [hd]
    dsimp only
    rw [hp]
  · intro payload hno hsh hok
    unfold GetHashForSMSMessage getPublicKeyFromPublicKeyPayload at hok
    rcases hd : ext.base64Decode payload with e | bytes
    · rw [hd] at hok
      exact absurd hok (by simp)
    · rw [hd] at hok
      dsimp only at hok
      rcases hp : ext.parsePKIX bytes with e | pk
      · rw [hp] at hok
        exact absurd hok (by simp)
      · rw [hp] at hok
        cases pk with
        | other => exact absurd hok (by simp)
        | ecdsa k =>
          by_cases hon : isOnCurveP384 k.x k.y = true
          · exact hno ⟨bytes, k, hd, hp, hon⟩
          · simp only [Bool.not_eq_true] at hon
            have hsec : ecdhDeriveSecret ext priv k = .error (.preconditionFailed
              "Verified SMS Public Keys should be on curve secp384r1 (elliptic.P384) but this public key is not on this curve."
              [("public_key.x", toString k.x),
               ("public_key.y", toString k.y),
               ("public_key.curve_name", k.curveName)]) := by
              simp [ecdhDeriveSecret, hon]
            dsimp only at hok
            rw [hsec] at hok
            exact absurd hok (by simp)

/-- Witness for C10: a decodable, parseable, non-EC payload yields the
InternalService error and never a hash. -/
theorem c10_non_ec_key_rejected_witness :
    GetHashForSMSMessage nonEcExt "AA==" ⟨1⟩ [] =
      .error (.internalService "failed to unmarshal into ECDSA") ∧
    ∀ hsh, GetHashForSMSMessage nonEcExt "AA==" ⟨1⟩ [] ≠ .ok hsh :=
  ⟨(c10_non_ec_key_rejected nonEcExt ⟨1⟩ []).1 "AA==" [0] rfl rfl,
   (c10_non_ec_key_rejected nonEcExt ⟨1⟩ []).2 "AA==" (by
     rintro ⟨bytes, k, hd, hp, -⟩
     simp only [nonEcExt, Except.ok.injEq] at hd
     subst hd
     simp [nonEcExt] at hp)⟩

end VerifiedSMS
